import Mathlib

/-!
Verification development for the autobrowser behavior scripts
(`src/autobrowser/behaviors/behaviorjs/twitterTimeline.js`, two IIFE
variants: the Twitter timeline visitor and the grid visitor).

The JavaScript is shallowly embedded: DOM state observed through
`querySelector` calls is carried as explicit record fields, asynchronous
generator executions are rendered as event traces, and the browser's URL
component is given a small executable model.  Machine integers do not
arise (all counts are small non-negative quantities, modelled as `Nat`).
-/

namespace Autobrowser

/-! ## String primitives (JS `trim` and `startsWith`) -/

/-- Characters removed by JavaScript `String.prototype.trim` (the ASCII
subset; the behavior scripts only ever meet ASCII whitespace). -/
def isJsSpace (c : Char) : Bool :=
  c == ' ' || c == '\t' || c == '\n' || c == '\r' || c == '\x0b' || c == '\x0c'

/-- Model of JavaScript `String.prototype.trim`. -/
def jsTrim (s : String) : String :=
  ⟨((s.data.dropWhile isJsSpace).reverse.dropWhile isJsSpace).reverse⟩

/-- Model of JavaScript `String.prototype.startsWith`. -/
def startsWithStr (s pre : String) : Bool :=
  pre.data.isPrefixOf s.data

/-! ## Model of the browser URL component

Both script variants test candidate link strings by assigning
`urlParser.href = test` inside `try`/`catch` and then reading
`urlParser.protocol`.  The model extracts the scheme (the characters
before the first `:`, required to begin with an ASCII letter and to
consist of letters, digits, `+`, `-`, `.`), lowercases it, and for the
special schemes `http:`/`https:` additionally requires a nonempty host
(`new URL('http:')` throws).  Failure modes of other schemes beyond
scheme syntax are not modelled; this is sound for the scripts because
their `goodSchemes` table only ever accepts `http:` and `https:`. -/

def isSchemeStartChar (c : Char) : Bool := c.isAlpha

def isSchemeChar (c : Char) : Bool :=
  c.isAlpha || c.isDigit || c == '+' || c == '-' || c == '.'

/-- Split a candidate string at the first `:`. -/
def splitScheme (l : List Char) : Option (List Char × List Char) :=
  match l.dropWhile (fun c => c != ':') with
  | ':' :: rest => some (l.takeWhile (fun c => c != ':'), rest)
  | _ => none

def validSchemeName : List Char → Bool
  | [] => false
  | c :: cs => isSchemeStartChar c && cs.all isSchemeChar

/-- The host component read off after the scheme: drop the slashes of the
authority introducer, then take until a delimiter. -/
def hostPart (rest : List Char) : List Char :=
  (rest.dropWhile (fun c => c == '/')).takeWhile
    (fun c => c != '/' && c != '?' && c != '#')

/-- List-level body of `urlParseProtocol`. -/
def urlParseProtocolAux (l : List Char) : Option String :=
  match splitScheme l with
  | none => none
  | some (sch, rest) =>
    if validSchemeName sch then
      let proto : String := ⟨sch.map Char.toLower ++ [':']⟩
      if proto == "http:" || proto == "https:" then
        if (hostPart rest).isEmpty then none else some proto
      else some proto
    else none

/-- Protocol (scheme plus trailing colon) produced by a successful
`urlParser.href = test` assignment, `none` when the assignment throws. -/
def urlParseProtocol (s : String) : Option String :=
  urlParseProtocolAux s.data

/-- The scripts' scheme whitelist `\x7b 'http:': true, 'https:': true \x7d`. -/
def goodSchemes (p : String) : Bool := p == "http:" || p == "https:"

/-- The combined `parsed && goodSchemes[urlParser.protocol]` test shared by
both ignore predicates. -/
def parsesWithGoodScheme (test : String) : Bool :=
  match urlParseProtocol test with
  | some proto => goodSchemes proto
  | none => false

/-! ## Outlink collection

The timeline variant has a free function `shouldIgnoreLink`; the grid
variant has the method `OutLinkCollector.shouldIgnore`.  In the timeline
variant the prefix loop is dead code: the source reads

  let ignored = false;
  let i = ignored.length;
  while (i--) \x7b ... \x7d

so `i` is the `length` property of the boolean `false`, i.e. `undefined`;
`i--` evaluates to `NaN`, which is falsy, and the loop body never runs.
Only the URL-parse-and-scheme check remains observable. -/

/-- Embedding of the timeline variant `shouldIgnoreLink` (lines 206-225).
Its prefix loop never executes (see above), leaving the negated
parse-and-scheme test. -/
def shouldIgnoreLink (test : String) : Bool :=
  !(parsesWithGoodScheme test)

namespace OutLinkCollector

/-- The `this.ignored` prefix list of the grid variant's collector. -/
def ignored : List String :=
  ["about:", "data:", "mailto:", "javascript:", "js:", "\x7b", "*", "ftp:", "tel:"]

/-- Embedding of `OutLinkCollector.shouldIgnore` (lines 681-700): scan the
prefix list (the source walks it back to front, which does not affect the
boolean outcome), then fall back to the parse-and-scheme test. -/
def shouldIgnore (test : String) : Bool :=
  if ignored.any (fun p => startsWithStr test p) then true
  else !(parsesWithGoodScheme test)

end OutLinkCollector

/-- The collector's `Set` of outlinks: a JS `Set` iterates in insertion
order, modelled by a duplicate-free list appended on insert. -/
structure OutlinkSet where
  links : List String
deriving DecidableEq

def OutlinkSet.has (st : OutlinkSet) (x : String) : Bool :=
  st.links.contains x

def OutlinkSet.add (st : OutlinkSet) (x : String) : OutlinkSet :=
  if st.has x then st else ⟨st.links ++ [x]⟩

/-- The shared candidate-processing body of `addOutLinks` / `addOutlink`:
`href = candidate.trim(); if (href && !set.has(href) && !shouldIgnore(href))
set.add(href);` — `href &&` is JS string truthiness, i.e. nonemptiness. -/
def addCandidate (st : OutlinkSet) (c : String) : OutlinkSet :=
  if jsTrim c ≠ "" ∧ st.has (jsTrim c) = false
      ∧ OutLinkCollector.shouldIgnore (jsTrim c) = false then
    st.add (jsTrim c)
  else st

/-- Embedding of `OutLinkCollector.addOutLinks` (lines 710-719): the
source loop `let i = outlinks.length; while (i--)` walks the candidate
array from its last element to its first. -/
def addOutLinks (st : OutlinkSet) (toAdd : List String) : OutlinkSet :=
  toAdd.reverse.foldl addCandidate st

/-- Embedding of `OutLinkCollector.addOutlink` (lines 724-729) applied to
a string argument (`elemOrString.href || elemOrString` falls through to
the string itself). -/
def addOutlink (st : OutlinkSet) (c : String) : OutlinkSet :=
  addCandidate st c

/-- Embedding of `OutLinkCollector.outLinkArray` (`Array.from(this.outlinks)`,
i.e. the set in insertion order). -/
def outLinkArray (st : OutlinkSet) : List String :=
  st.links

/-- One call into the collector: a bulk `addOutLinks`/`collectFrom` batch
or a single `addOutlink`. -/
inductive FeedOp
  | addMany (batch : List String)
  | addOne (c : String)

/-- The candidate strings a feed operation carries. -/
def FeedOp.candidates : FeedOp → List String
  | .addMany b => b
  | .addOne c => [c]

def applyFeedOp (st : OutlinkSet) : FeedOp → OutlinkSet
  | .addMany b => addOutLinks st b
  | .addOne c => addOutlink st c

/-- Feeding a sequence of collector calls to an initially empty registry. -/
def feed (ops : List FeedOp) : OutlinkSet :=
  ops.foldl applyFeedOp ⟨[]⟩

/-! ## Registry membership (claims C1 and C3) -/

theorem OutlinkSet.has_iff (st : OutlinkSet) (x : String) :
    st.has x = true ↔ x ∈ st.links := by
  simp [OutlinkSet.has, List.contains, List.elem_iff]

theorem mem_addCandidate (st : OutlinkSet) (c x : String) :
    x ∈ (addCandidate st c).links ↔
      x ∈ st.links ∨
        (jsTrim c = x ∧ jsTrim c ≠ "" ∧
          OutLinkCollector.shouldIgnore (jsTrim c) = false) := by
  unfold addCandidate
  split
  · next h =>
    obtain ⟨h1, h2, h3⟩ := h
    unfold OutlinkSet.add
    rw [h2]
    simp only [Bool.false_eq_true, if_false, List.mem_append, List.mem_singleton]
    constructor
    · rintro (hx | hx)
      · exact Or.inl hx
      · exact Or.inr ⟨hx.symm, h1, h3⟩
    · rintro (hx | ⟨hx, _, _⟩)
      · exact Or.inl hx
      · exact Or.inr hx.symm
  · next h =>
    constructor
    · exact Or.inl
    · rintro (hx | ⟨hx, hne, hig⟩)
      · exact hx
      · by_cases hh : st.has (jsTrim c) = false
        · exact absurd ⟨hne, hh, hig⟩ h
        · have : st.has (jsTrim c) = true := by
            cases hb : st.has (jsTrim c)
            · exact absurd hb hh
            · rfl
          rw [← hx]
          exact (OutlinkSet.has_iff st (jsTrim c)).mp this

theorem mem_foldl_addCandidate (l : List String) (st : OutlinkSet) (x : String) :
    x ∈ (l.foldl addCandidate st).links ↔
      x ∈ st.links ∨ ∃ c ∈ l, jsTrim c = x ∧ jsTrim c ≠ "" ∧
        OutLinkCollector.shouldIgnore (jsTrim c) = false := by
  induction l generalizing st with
  | nil => simp
  | cons c cs ih =>
    simp only [List.foldl_cons, ih, mem_addCandidate, List.exists_mem_cons_iff]
    tauto

theorem mem_addOutLinks (st : OutlinkSet) (toAdd : List String) (x : String) :
    x ∈ (addOutLinks st toAdd).links ↔
      x ∈ st.links ∨ ∃ c ∈ toAdd, jsTrim c = x ∧ jsTrim c ≠ "" ∧
        OutLinkCollector.shouldIgnore (jsTrim c) = false := by
  unfold addOutLinks
  rw [mem_foldl_addCandidate]
  simp [List.mem_reverse]

theorem mem_applyFeedOp (st : OutlinkSet) (op : FeedOp) (x : String) :
    x ∈ (applyFeedOp st op).links ↔
      x ∈ st.links ∨ ∃ c ∈ op.candidates, jsTrim c = x ∧ jsTrim c ≠ "" ∧
        OutLinkCollector.shouldIgnore (jsTrim c) = false := by
  cases op with
  | addMany b => simp [applyFeedOp, FeedOp.candidates, mem_addOutLinks]
  | addOne c => simp [applyFeedOp, FeedOp.candidates, addOutlink, mem_addCandidate]

theorem mem_foldl_applyFeedOp (ops : List FeedOp) (st : OutlinkSet) (x : String) :
    x ∈ (ops.foldl applyFeedOp st).links ↔
      x ∈ st.links ∨ ∃ op ∈ ops, ∃ c ∈ op.candidates,
        jsTrim c = x ∧ jsTrim c ≠ "" ∧
        OutLinkCollector.shouldIgnore (jsTrim c) = false := by
  induction ops generalizing st with
  | nil => simp
  | cons op rest ih =>
    simp only [List.foldl_cons, ih, mem_applyFeedOp, List.exists_mem_cons_iff]
    exact or_assoc

theorem shouldIgnore_eq_false_iff (t : String) :
    OutLinkCollector.shouldIgnore t = false ↔
      (∀ p ∈ OutLinkCollector.ignored, startsWithStr t p = false) ∧
      parsesWithGoodScheme t = true := by
  unfold OutLinkCollector.shouldIgnore
  by_cases h : OutLinkCollector.ignored.any (fun p => startsWithStr t p) = true
  · rw [if_pos h]
    simp only [List.any_eq_true] at h
    obtain ⟨p, hp, hsp⟩ := h
    constructor
    · intro habs; exact absurd habs (by simp)
    · rintro ⟨hall, _⟩
      have := hall p hp
      simp only [this] at hsp
      cases hsp
  · rw [if_neg h]
    have h' : OutLinkCollector.ignored.any (fun p => startsWithStr t p) = false := by
      cases hb : OutLinkCollector.ignored.any (fun p => startsWithStr t p)
      · rfl
      · exact absurd hb h
    simp only [List.any_eq_false] at h'
    constructor
    · intro hg
      refine ⟨fun p hp => ?_, ?_⟩
      · have := h' p hp
        cases hb : startsWithStr t p
        · rfl
        · exact absurd hb this
      · cases hb : parsesWithGoodScheme t
        · rw [hb] at hg; cases hg
        · rfl
    · rintro ⟨_, hg⟩
      rw [hg]
      rfl

/-- Claim C1: a string is in the registry produced by feeding any sequence
of `add`/`collect` calls to an initially empty collector if and only if it
is the trim of some fed candidate that is nonempty after trimming, does
not start with an entry of the ignore-prefix list, and parses as an
absolute URL with scheme `http` or `https` (duplicates are absorbed by the
set, so "was not already present" never excludes a string from membership). -/
theorem outlink_registry_membership (ops : List FeedOp) (s : String) :
    s ∈ outLinkArray (feed ops) ↔
      ∃ c ∈ (ops.map FeedOp.candidates).flatten,
        jsTrim c = s ∧ jsTrim c ≠ "" ∧
        (∀ p ∈ OutLinkCollector.ignored, startsWithStr (jsTrim c) p = false) ∧
        parsesWithGoodScheme (jsTrim c) = true := by
  unfold outLinkArray feed
  rw [mem_foldl_applyFeedOp]
  simp only [List.mem_flatten, List.mem_map]
  constructor
  · rintro (hx | ⟨op, hop, c, hc, h1, h2, h3⟩)
    · cases hx
    · exact ⟨c, ⟨op.candidates, ⟨op, hop, rfl⟩, hc⟩,
        h1, h2, (shouldIgnore_eq_false_iff (jsTrim c)).mp h3⟩
  · rintro ⟨c, ⟨l, ⟨op, hop, rfl⟩, hc⟩, h1, h2, h3, h4⟩
    exact Or.inr ⟨op, hop, c, hc, h1, h2,
      (shouldIgnore_eq_false_iff (jsTrim c)).mpr ⟨h3, h4⟩⟩

/-- The scenario-1 candidate batch of claim C3. -/
def scenario1Batch : List String :=
  ["https://x.com/a", "https://x.com/a", "javascript:evil()", "  https://x.com/b  "]

/-- Claim C3, counterexample: the snapshot after feeding the scenario-1
batch to an empty collector is not `["https://x.com/a", "https://x.com/b"]`
— `addOutLinks` walks the candidate array from its last element to its
first, so the insertion order is reversed. -/
theorem scenario1_snapshot_ne_claimed :
    outLinkArray (addOutLinks ⟨[]⟩ scenario1Batch) ≠
      ["https://x.com/a", "https://x.com/b"] := by decide

/-- Claim C3, amended: feeding the scenario-1 batch to an empty collector
yields the snapshot `["https://x.com/b", "https://x.com/a"]` — the same
two accepted strings, but in the reverse order, because the `while (i--)`
loop of `addOutLinks` processes candidates last-to-first. -/
theorem scenario1_snapshot :
    outLinkArray (addOutLinks ⟨[]⟩ scenario1Batch) =
      ["https://x.com/b", "https://x.com/a"] := by decide

/-! ## Equivalence of the two ignore predicates (claim C10) -/

theorem splitScheme_eq_some {l sch rest : List Char}
    (h : splitScheme l = some (sch, rest)) :
    sch = l.takeWhile (fun c => c != ':') := by
  unfold splitScheme at h
  split at h
  · simp only [Option.some.injEq, Prod.mk.injEq] at h
    exact h.1.symm
  · cases h

theorem goodProto_shape {l : List Char} {proto : String}
    (hp : urlParseProtocolAux l = some proto) (hg : goodSchemes proto = true) :
    (l.takeWhile (fun c => c != ':')).map Char.toLower = "http".data ∨
    (l.takeWhile (fun c => c != ':')).map Char.toLower = "https".data := by
  unfold urlParseProtocolAux at hp
  cases hs : splitScheme l with
  | none => rw [hs] at hp; cases hp
  | some pr =>
    obtain ⟨sch, rest⟩ := pr
    rw [hs] at hp
    dsimp only at hp
    by_cases hv : validSchemeName sch = true
    · rw [if_pos hv] at hp
      have hproto : proto = (⟨sch.map Char.toLower ++ [':']⟩ : String) := by
        split at hp
        · split at hp
          · cases hp
          · simp only [Option.some.injEq] at hp
            exact hp.symm
        · simp only [Option.some.injEq] at hp
          exact hp.symm
      subst hproto
      unfold goodSchemes at hg
      rw [Bool.or_eq_true] at hg
      have hsch := splitScheme_eq_some hs
      cases hg with
      | inl h1 =>
        left
        have he : (⟨sch.map Char.toLower ++ [':']⟩ : String) = "http:" :=
          eq_of_beq h1
        have hdata : sch.map Char.toLower ++ [':'] = "http".data ++ [':'] := by
          have h2 : sch.map Char.toLower ++ [':'] = "http:".data :=
            congrArg String.data he
          rw [h2]; decide
        rw [← hsch]
        exact List.append_cancel_right hdata
      | inr h1 =>
        right
        have he : (⟨sch.map Char.toLower ++ [':']⟩ : String) = "https:" :=
          eq_of_beq h1
        have hdata : sch.map Char.toLower ++ [':'] = "https".data ++ [':'] := by
          have h2 : sch.map Char.toLower ++ [':'] = "https:".data :=
            congrArg String.data he
          rw [h2]; decide
        rw [← hsch]
        exact List.append_cancel_right hdata
    · rw [if_neg hv] at hp; cases hp

theorem not_good_of_takeWhile_ne (l : List Char)
    (h1 : (l.takeWhile (fun c => c != ':')).map Char.toLower ≠ "http".data)
    (h2 : (l.takeWhile (fun c => c != ':')).map Char.toLower ≠ "https".data) :
    parsesWithGoodScheme ⟨l⟩ = false := by
  cases hb : parsesWithGoodScheme ⟨l⟩
  · rfl
  · exfalso
    unfold parsesWithGoodScheme at hb
    cases hp : urlParseProtocol ⟨l⟩ with
    | none => rw [hp] at hb; cases hb
    | some proto =>
      rw [hp] at hb
      have hp' : urlParseProtocolAux l = some proto := hp
      rcases goodProto_shape hp' hb with h | h
      · exact h1 h
      · exact h2 h

/-- A candidate starting with one of the grid collector's ignore prefixes
never parses to an `http:`/`https:` protocol: for the seven prefixes that
end in a colon the parsed scheme is the prefix itself, and `\x7b` and `*`
are not valid scheme starts. -/
theorem startsIgnored_not_good (s p : String)
    (hmem : p ∈ OutLinkCollector.ignored) (hs : startsWithStr s p = true) :
    parsesWithGoodScheme s = false := by
  obtain ⟨l⟩ := s
  have hpre : p.data <+: l := by
    have hb : p.data.isPrefixOf l = true := hs
    exact List.isPrefixOf_iff_prefix.mp hb
  obtain ⟨t, ht⟩ := hpre
  subst ht
  simp only [OutLinkCollector.ignored, List.mem_cons, List.not_mem_nil,
    or_false] at hmem
  rcases hmem with rfl | rfl | rfl | rfl | rfl | rfl | rfl | rfl | rfl
  · exact not_good_of_takeWhile_ne _
      (fun h => absurd (show "about".data = "http".data from h) (by decide))
      (fun h => absurd (show "about".data = "https".data from h) (by decide))
  · exact not_good_of_takeWhile_ne _
      (fun h => absurd (show "data".data = "http".data from h) (by decide))
      (fun h => absurd (show "data".data = "https".data from h) (by decide))
  · exact not_good_of_takeWhile_ne _
      (fun h => absurd (show "mailto".data = "http".data from h) (by decide))
      (fun h => absurd (show "mailto".data = "https".data from h) (by decide))
  · exact not_good_of_takeWhile_ne _
      (fun h => absurd (show "javascript".data = "http".data from h) (by decide))
      (fun h => absurd (show "javascript".data = "https".data from h) (by decide))
  · exact not_good_of_takeWhile_ne _
      (fun h => absurd (show "js".data = "http".data from h) (by decide))
      (fun h => absurd (show "js".data = "https".data from h) (by decide))
  · -- prefix `\x7b`
    apply not_good_of_takeWhile_ne
    · intro h
      have hh := congrArg List.head? h
      rw [show ((("\x7b".data ++ t).takeWhile (fun c => c != ':')).map
        Char.toLower).head? = some '\x7b' from rfl] at hh
      exact absurd hh (by decide)
    · intro h
      have hh := congrArg List.head? h
      rw [show ((("\x7b".data ++ t).takeWhile (fun c => c != ':')).map
        Char.toLower).head? = some '\x7b' from rfl] at hh
      exact absurd hh (by decide)
  · -- prefix `*`
    apply not_good_of_takeWhile_ne
    · intro h
      have hh := congrArg List.head? h
      rw [show ((("*".data ++ t).takeWhile (fun c => c != ':')).map
        Char.toLower).head? = some '*' from rfl] at hh
      exact absurd hh (by decide)
    · intro h
      have hh := congrArg List.head? h
      rw [show ((("*".data ++ t).takeWhile (fun c => c != ':')).map
        Char.toLower).head? = some '*' from rfl] at hh
      exact absurd hh (by decide)
  · exact not_good_of_takeWhile_ne _
      (fun h => absurd (show "ftp".data = "http".data from h) (by decide))
      (fun h => absurd (show "ftp".data = "https".data from h) (by decide))
  · exact not_good_of_takeWhile_ne _
      (fun h => absurd (show "tel".data = "http".data from h) (by decide))
      (fun h => absurd (show "tel".data = "https".data from h) (by decide))

/-- Reference ignore predicate, following the claim's wording: ignore a
string exactly when it does not parse as an absolute URL with protocol
`http:` or `https:`. -/
def refShouldIgnore (s : String) : Bool :=
  !(parsesWithGoodScheme s)

/-- Claim C10: the timeline variant's `shouldIgnoreLink` and the grid
variant's `OutLinkCollector.shouldIgnore` return the same verdict on every
input, and both coincide with the reference predicate "ignore exactly when
the string does not parse as an absolute URL with protocol `http:` or
`https:`" — the prefix list consulted only by the grid variant never
changes the verdict, because prefix-matching strings cannot parse to an
`http:`/`https:` protocol. -/
theorem ignore_predicates_equivalent (s : String) :
    shouldIgnoreLink s = OutLinkCollector.shouldIgnore s ∧
    shouldIgnoreLink s = refShouldIgnore s := by
  refine ⟨?_, rfl⟩
  unfold shouldIgnoreLink OutLinkCollector.shouldIgnore
  by_cases h : OutLinkCollector.ignored.any (fun p => startsWithStr s p) = true
  · rw [if_pos h]
    simp only [List.any_eq_true] at h
    obtain ⟨p, hp, hsp⟩ := h
    rw [startsIgnored_not_good s p hp hsp]
    rfl
  · rw [if_neg h]

/-! ## Timeline visitor: the `Tweet` content unit (claims C4 and C7)

DOM elements are carried as records; each boolean field of `TweetDom`
records the outcome of the corresponding `querySelector` call made by the
`Tweet` constructor on a well-formed timeline entry. -/

structure DomElem where
  classes : List String
deriving DecidableEq

/-- Model of `markElemAsVisited` (lines 57-61) at its default marker:
`classList.add('wrvistited')`, a no-op when the class is already present.
All timeline call sites pass a non-null element. -/
def markElemAsVisited (e : DomElem) : DomElem :=
  if "wrvistited" ∈ e.classes then e else ⟨e.classes ++ ["wrvistited"]⟩

/-- Observed DOM state of one timeline tweet:
* `content` — the `div.content` element handed to the constructor;
* `zeroReplySpan` — whether `rplyButton.querySelector('span.ProfileTweet-actionCount--isZero')` finds a node;
* `showThreadLink` — whether `tweet.querySelector('a.js-nav.show-thread-link')` finds a node;
* `videoContainer` — whether `tweet.querySelector('div.AdaptiveMedia-videoContainer')` finds a node;
* `overlaySnapshotSizes` — the lengths of the successive nonzero overlay
  xpath snapshots consumed by `visitThreadReplyTweets`;
* `permalinkPath` — `dataset.permalinkPath`. -/
structure TweetDom where
  content : DomElem
  zeroReplySpan : Bool
  showThreadLink : Bool
  videoContainer : Bool
  overlaySnapshotSizes : List Nat
  permalinkPath : String
deriving DecidableEq

structure Tweet where
  tweet : DomElem
  hasReplysFlag : Bool
  apartThread : Bool
  videoContainer : Bool
  overlaySnapshotSizes : List Nat
  baseURI : String
deriving DecidableEq

/-- Embedding of the `Tweet` constructor (lines 312-340): the content div
is marked visited, `_hasReplys` is `rplyButton.querySelector(noReplySpanSelector) == null`,
`_apartThread` is `tweet.querySelector(threadSelector) != null`. -/
def Tweet.construct (d : TweetDom) (baseURI : String) : Tweet :=
  { tweet := markElemAsVisited d.content
    hasReplysFlag := !d.zeroReplySpan
    apartThread := d.showThreadLink
    videoContainer := d.videoContainer
    overlaySnapshotSizes := d.overlaySnapshotSizes
    baseURI := baseURI }

/-- `hasVideo` (lines 342-354) reports presence of the video container
(and, as a side effect not modelled here, starts playback). -/
def Tweet.hasVideo (t : Tweet) : Bool := t.videoContainer

def Tweet.hasReplys (t : Tweet) : Bool := t.hasReplysFlag

def Tweet.apartOfThread (t : Tweet) : Bool := t.apartThread

/-- `hasRepliedOrInThread` (lines 372-374): the deep-content flag. -/
def Tweet.hasRepliedOrInThread (t : Tweet) : Bool :=
  t.hasReplys || t.apartOfThread

/-! ## Timeline visitor: generator traces (claims C2, C4, C6)

An async-generator execution is rendered as the list of its observable
events.  The three yield statements of the source are told apart by their
site: line 502 `yield true` after a successful `hasVideo()`, line 391
`yield false` inside `viewRegularTweet`, line 432 `yield false` inside
`visitThreadReplyTweets`. -/

inductive YieldSite
  | videoStart
  | regular
  | threadReply
deriving DecidableEq

/-- The boolean each yield site produces. -/
def siteValue : YieldSite → Bool
  | .videoStart => true
  | .regular => false
  | .threadReply => false

inductive TLEvent
  | openOverlay
  | closeOverlay
  | yieldStep (site : YieldSite)
deriving DecidableEq

def isYieldEvent : TLEvent → Bool
  | .yieldStep _ => true
  | _ => false

/-- Trace of `viewRegularTweet` (lines 389-393): open the overlay, yield
`false` once, close the overlay. -/
def viewRegularTweetTrace : List TLEvent :=
  [.openOverlay, .yieldStep .regular, .closeOverlay]

/-- Trace of `visitThreadReplyTweets` (lines 416-448): one `yield false`
per sub-tweet of each successive nonzero overlay snapshot. -/
def visitThreadReplyTrace (t : Tweet) : List TLEvent :=
  (t.overlaySnapshotSizes.map
    (fun n => List.replicate n (TLEvent.yieldStep .threadReply))).flatten

/-- Trace of `viewRepliesOrThread` (lines 380-384). -/
def viewRepliesOrThreadTrace (t : Tweet) : List TLEvent :=
  [TLEvent.openOverlay] ++ visitThreadReplyTrace t ++ [TLEvent.closeOverlay]

/-- The branch at lines 504-508 of `timelineIterator`: deep content gets
the nested overlay traversal, otherwise the open-close visit. -/
def tweetVisitTrace (t : Tweet) : List TLEvent :=
  if t.hasRepliedOrInThread then viewRepliesOrThreadTrace t
  else viewRegularTweetTrace

/-- Full per-tweet trace of one inner-loop pass (lines 494-509): the
video yield (line 502) precedes the visit. -/
def tweetTrace (t : Tweet) : List TLEvent :=
  (if t.hasVideo then [TLEvent.yieldStep .videoStart] else [])
    ++ tweetVisitTrace t

/-! ## Timeline visitor: session loop (claims C2 and C6) -/

/-- The quantities read by `canScrollMore` (lines 125-136). -/
structure Geom where
  scrollY : Nat
  innerHeight : Nat
  bodyScrollHeight : Nat
  bodyOffsetHeight : Nat
  docClientHeight : Nat
  docScrollHeight : Nat
  docOffsetHeight : Nat
deriving DecidableEq

/-- Embedding of `canScrollMore`: `window.scrollY + window.innerHeight <
Math.max(...)` over the five extent measurements. -/
def canScrollMore (g : Geom) : Bool :=
  decide (g.scrollY + g.innerHeight <
    max g.bodyScrollHeight (max g.bodyOffsetHeight (max g.docClientHeight
      (max g.docScrollHeight g.docOffsetHeight))))

/-- The page as the session loop observes it: `enumerate k` is the result
of the k-th evaluation of the tweet xpath query (the query excludes
already-marked tweets, so successive results are disjoint on a real page;
the loop's control flow does not rely on that), and `geom r` the geometry
at the r-th `canScrollMore` check. -/
structure TimelineEnv where
  enumerate : Nat → List TweetDom
  geom : Nat → Geom
  baseURI : String

/-- Lines 510-514: re-query; when that is empty, wait (`delay()`) and
query once more.  Returns the new worklist and the next query index. -/
def reEnumerate (env : TimelineEnv) (k : Nat) : List TweetDom × Nat :=
  if (env.enumerate k).isEmpty then (env.enumerate (k+1), k+2)
  else (env.enumerate k, k+1)

/-- Events of the inner `while (tweets.length > 0)` drain. -/
def drainTrace (env : TimelineEnv) (tweets : List TweetDom) : List TLEvent :=
  (tweets.map (fun d => tweetTrace (Tweet.construct d env.baseURI))).flatten

/-- Fuel-bounded embedding of the `do ... while (tweets.length > 0 &&
canScrollMore())` session loop of `timelineIterator` (lines 493-515).
Returns the event trace together with `some round` when the loop reached
its exit within the fuel bound (`none` when the fuel ran out first). -/
def sessionLoop (env : TimelineEnv) :
    Nat → List TweetDom → Nat → Nat → List TLEvent × Option Nat
  | 0, _, _, _ => ([], none)
  | fuel+1, tweets, k, round =>
    if 0 < (reEnumerate env k).1.length ∧ canScrollMore (env.geom round) = true then
      (drainTrace env tweets ++
        (sessionLoop env fuel (reEnumerate env k).1 (reEnumerate env k).2 (round+1)).1,
       (sessionLoop env fuel (reEnumerate env k).1 (reEnumerate env k).2 (round+1)).2)
    else (drainTrace env tweets, some round)

/-- One timeline session: initial enumeration (line 491), then the loop. -/
def timelineRun (env : TimelineEnv) (fuel : Nat) : List TLEvent × Option Nat :=
  sessionLoop env fuel (env.enumerate 0) 1 0

/-- The yields of the session generator, in order, with their sites. -/
def sessionYieldSites (env : TimelineEnv) (fuel : Nat) : List YieldSite :=
  (timelineRun env fuel).1.filterMap
    (fun e => match e with
      | TLEvent.yieldStep site => some site
      | _ => none)

/-- The boolean values the generator yields. -/
def timelineYields (env : TimelineEnv) (fuel : Nat) : List Bool :=
  (sessionYieldSites env fuel).map siteValue

structure StepResult where
  done : Bool
  wait : Bool
deriving DecidableEq

/-- Embedding of `$WRIteratorHandler$` (lines 525-528) acting on the
pending yields: a finished generator's `next()` reports done with an
undefined value, and `wait` is `!!next.value`. -/
def wrIteratorHandler : List Bool → StepResult
  | [] => { done := true, wait := false }
  | b :: _ => { done := false, wait := b }

/-- The n-th `step()` call of the host: the generator has `n` yields
behind it. -/
def handlerCall (env : TimelineEnv) (fuel n : Nat) : StepResult :=
  wrIteratorHandler ((timelineYields env fuel).drop n)

/-! ## Claims C7 and C4 -/

/-- Claim C7: constructing a timeline ContentUnit marks its element
visited synchronously at construction, derives `hasReplys` true exactly
when the reply button contains no zero-count marker span, `apartOfThread`
true exactly when a show-thread link is present, and the deep-content
flag as the disjunction of the two. -/
theorem tweet_construction_flags (d : TweetDom) (base : String) :
    "wrvistited" ∈ (Tweet.construct d base).tweet.classes ∧
    (Tweet.construct d base).hasReplys = !d.zeroReplySpan ∧
    (Tweet.construct d base).apartOfThread = d.showThreadLink ∧
    (Tweet.construct d base).hasRepliedOrInThread =
      ((Tweet.construct d base).hasReplys ||
        (Tweet.construct d base).apartOfThread) := by
  refine ⟨?_, rfl, rfl, rfl⟩
  unfold Tweet.construct markElemAsVisited
  dsimp only
  split
  · next h => exact h
  · simp

/-- Unit for the claim-C4 counterexample: footer carries no
reply-count-zero marker, tweet carries no thread link. -/
def c4Dom : TweetDom :=
  { content := ⟨["content"]⟩
    zeroReplySpan := false
    showThreadLink := false
    videoContainer := false
    overlaySnapshotSizes := []
    permalinkPath := "/a/status/1" }

/-- Claim C4, counterexample: for a unit with no reply-count-zero marker
and no thread link, the deep-content flag is true, not false — absence of
the zero marker is how the constructor detects that the tweet has
replies. -/
theorem no_zero_marker_deep_content :
    c4Dom.zeroReplySpan = false ∧ c4Dom.showThreadLink = false ∧
    (Tweet.construct c4Dom "https://twitter.com/a").hasRepliedOrInThread
      = true :=
  ⟨rfl, rfl, rfl⟩

/-- Claim C4, amended: for every ContentUnit whose footer does contain
the reply-count-zero marker and whose tweet contains no thread link, the
deep-content flag is false, and visiting it opens the overlay and
immediately closes it with no nested iteration, yielding exactly one
progress signal. -/
theorem zero_marker_single_yield (d : TweetDom) (base : String)
    (hz : d.zeroReplySpan = true) (ht : d.showThreadLink = false) :
    (Tweet.construct d base).hasRepliedOrInThread = false ∧
    tweetVisitTrace (Tweet.construct d base) =
      [TLEvent.openOverlay, TLEvent.yieldStep YieldSite.regular,
        TLEvent.closeOverlay] ∧
    (tweetVisitTrace (Tweet.construct d base)).countP isYieldEvent = 1 := by
  have hdeep : (Tweet.construct d base).hasRepliedOrInThread = false := by
    unfold Tweet.hasRepliedOrInThread Tweet.hasReplys Tweet.apartOfThread
      Tweet.construct
    dsimp only
    rw [hz, ht]
    rfl
  refine ⟨hdeep, ?_, ?_⟩
  · unfold tweetVisitTrace
    rw [hdeep]
    rfl
  · unfold tweetVisitTrace
    rw [hdeep]
    rfl

/-- Concrete unit instantiating the amended claim C4. -/
def c4AmendDom : TweetDom :=
  { content := ⟨[]⟩
    zeroReplySpan := true
    showThreadLink := false
    videoContainer := false
    overlaySnapshotSizes := []
    permalinkPath := "/a/status/2" }

/-- Witness for the amended claim C4 at a concrete unit. -/
theorem zero_marker_single_yield_witness :
    (Tweet.construct c4AmendDom "https://twitter.com/a").hasRepliedOrInThread
      = false ∧
    tweetVisitTrace (Tweet.construct c4AmendDom "https://twitter.com/a") =
      [TLEvent.openOverlay, TLEvent.yieldStep YieldSite.regular,
        TLEvent.closeOverlay] ∧
    (tweetVisitTrace
      (Tweet.construct c4AmendDom "https://twitter.com/a")).countP
        isYieldEvent = 1 :=
  zero_marker_single_yield c4AmendDom "https://twitter.com/a" rfl rfl

/-! ## Claim C2 -/

theorem sessionLoop_round_le (env : TimelineEnv) :
    ∀ fuel tweets k round r,
      (sessionLoop env fuel tweets k round).2 = some r → round ≤ r := by
  intro fuel
  induction fuel with
  | zero =>
    intro tweets k round r h
    cases h
  | succ n ih =>
    intro tweets k round r h
    unfold sessionLoop at h
    split at h
    · have := ih _ _ _ _ h
      omega
    · simp only at h
      cases h
      omega

/-- Claim C2, amended: a round of the session loop is the last one (done
is reached there) exactly when the re-enumeration — with its single
post-wait retry — comes back empty OR the scroll-extent check reports no
further scrolling; the loop continues past the round only when the
enumeration is nonempty AND scrolling is still possible. -/
theorem session_round_exits_iff (env : TimelineEnv) (fuel : Nat)
    (tweets : List TweetDom) (k round : Nat) :
    (sessionLoop env (fuel+1) tweets k round).2 = some round ↔
      ((reEnumerate env k).1 = [] ∨
        canScrollMore (env.geom round) = false) := by
  constructor
  · intro h
    by_cases hc : 0 < (reEnumerate env k).1.length ∧
        canScrollMore (env.geom round) = true
    · exfalso
      unfold sessionLoop at h
      rw [if_pos hc] at h
      have := sessionLoop_round_le env fuel _ _ _ _ h
      omega
    · rcases Decidable.not_and_iff_or_not.mp hc with hl | hr
      · left
        have : (reEnumerate env k).1.length = 0 := by omega
        exact List.length_eq_zero.mp this
      · right
        cases hb : canScrollMore (env.geom round)
        · rfl
        · exact absurd hb hr
  · intro h
    unfold sessionLoop
    rw [if_neg ?_]
    · rintro ⟨hlen, hcan⟩
      rcases h with h | h
      · rw [h] at hlen
        simp at hlen
      · rw [h] at hcan
        cases hcan

/-- A unit that keeps reappearing in the claim-C2 counterexample page. -/
def c2Tweet : TweetDom :=
  { content := ⟨[]⟩
    zeroReplySpan := true
    showThreadLink := false
    videoContainer := false
    overlaySnapshotSizes := []
    permalinkPath := "/t/1" }

/-- Geometry with no scroll room: scroll position plus viewport height
already reaches every extent measurement. -/
def blockedGeom : Geom :=
  { scrollY := 0
    innerHeight := 800
    bodyScrollHeight := 600
    bodyOffsetHeight := 600
    docClientHeight := 600
    docScrollHeight := 600
    docOffsetHeight := 600 }

/-- Page for the claim-C2 counterexample: every enumeration returns a
fresh unit, but scrolling is geometrically exhausted. -/
def c2Env : TimelineEnv :=
  { enumerate := fun _ => [c2Tweet]
    geom := fun _ => blockedGeom
    baseURI := "https://twitter.com/a" }

/-- Claim C2, counterexample: in a session whose re-enumeration keeps
returning a unit while the scroll-extent check reports no further
scrolling — so only ONE of the claim's two conjuncts holds — the session
loop nevertheless terminates in its very first round, contradicting the
claim that traversal continues whenever just one condition holds. -/
theorem session_exit_without_empty_enumeration :
    (timelineRun c2Env 5).2 = some 0 ∧
    c2Env.enumerate 1 ≠ [] ∧
    canScrollMore (c2Env.geom 0) = false := by
  refine ⟨rfl, ?_, rfl⟩
  intro h
  cases h

/-! ## Claim C6 -/

theorem getElem?_eq_head?_drop {α : Type} (l : List α) (n : Nat) :
    l[n]? = (l.drop n).head? := by
  induction l generalizing n with
  | nil => cases n <;> simp
  | cons a t ih =>
    cases n with
    | zero => simp
    | succ m => rw [List.getElem?_cons_succ, List.drop_succ_cons, ih m]

/-- Claim C6: every `step()` of the timeline handle returns a pair
`{done, wait}` in which `wait` is true only when that step's yield came
from starting inline video media (all other yield sites produce `false`),
and once the session trace is exhausted every further `step()` is a no-op
returning done with `wait` false. -/
theorem stepper_wait_and_done (env : TimelineEnv) (fuel n : Nat) :
    ((handlerCall env fuel n).wait = true →
      (sessionYieldSites env fuel)[n]? = some YieldSite.videoStart) ∧
    ((timelineYields env fuel).length ≤ n →
      handlerCall env fuel n = { done := true, wait := false }) := by
  constructor
  · intro hw
    unfold handlerCall at hw
    cases hd : (timelineYields env fuel).drop n with
    | nil =>
      rw [hd] at hw
      cases hw
    | cons b rest =>
      rw [hd] at hw
      have hb : b = true := hw
      unfold timelineYields at hd
      rw [← List.map_drop] at hd
      cases hs : (sessionYieldSites env fuel).drop n with
      | nil =>
        rw [hs] at hd
        cases hd
      | cons site srest =>
        rw [hs] at hd
        simp only [List.map_cons, List.cons.injEq] at hd
        have hsv : siteValue site = true := by rw [hd.1, hb]
        have hsite : site = YieldSite.videoStart := by
          cases site
          · rfl
          · cases hsv
          · cases hsv
        rw [getElem?_eq_head?_drop, hs, hsite]
        rfl
  · intro hlen
    unfold handlerCall
    rw [List.drop_eq_nil_of_le hlen]
    rfl

/-- A unit with inline video and no deep content, for the C6 witness. -/
def c6Dom : TweetDom :=
  { content := ⟨[]⟩
    zeroReplySpan := true
    showThreadLink := false
    videoContainer := true
    overlaySnapshotSizes := []
    permalinkPath := "/t/2" }

/-- Page for the claim-C6 witness: one video tweet, then exhaustion. -/
def c6Env : TimelineEnv :=
  { enumerate := fun k => if k = 0 then [c6Dom] else []
    geom := fun _ => blockedGeom
    baseURI := "https://twitter.com/b" }

/-- Witness for claim C6: on a concrete session the first step's
`wait: true` comes from the video-start yield, and a `step()` far past
the end of the trace reports done with `wait` false. -/
theorem stepper_wait_and_done_witness :
    (sessionYieldSites c6Env 3)[0]? = some YieldSite.videoStart ∧
    handlerCall c6Env 3 9 = { done := true, wait := false } :=
  ⟨(stepper_wait_and_done c6Env 3 0).1 rfl,
   (stepper_wait_and_done c6Env 3 9).2 (by decide)⟩

/-! ## Grid visitor: key-deduplicated traversal (claim C5) -/

/-- A rendered grid record: the backing node's identity and the react
instance key found on it. -/
structure RNode where
  nodeId : Nat
  key : String
deriving DecidableEq

/-- Embedding of `reactInstancesFromElements` (lines 643-657) applied to
the stateful `keySelector` closure of `iteratePins` (lines 794-800): walk
the rendered children in order; a node whose key is not in `seenPins` is
selected and its key added, the rest are dropped.  Returns the selected
records together with the grown seen-set. -/
def selectPins (seen : List String) : List RNode → List RNode × List String
  | [] => ([], seen)
  | n :: rest =>
    if n.key ∈ seen then selectPins seen rest
    else
      (n :: (selectPins (n.key :: seen) rest).1,
       (selectPins (n.key :: seen) rest).2)

theorem selectPins_spec (l : List RNode) :
    ∀ seen : List String,
      (((selectPins seen l).1.map RNode.key).Nodup) ∧
      (∀ n ∈ (selectPins seen l).1, n.key ∉ seen) ∧
      (∀ n ∈ (selectPins seen l).1, n.key ∈ (selectPins seen l).2) ∧
      (∀ x ∈ seen, x ∈ (selectPins seen l).2) := by
  induction l with
  | nil =>
    intro seen
    exact ⟨List.nodup_nil, by simp [selectPins], by simp [selectPins],
      fun x hx => hx⟩
  | cons n rest ih =>
    intro seen
    by_cases hn : n.key ∈ seen
    · simp only [selectPins, if_pos hn]
      exact ih seen
    · simp only [selectPins, if_neg hn]
      obtain ⟨ihd, ihf, ihm, ihs⟩ := ih (n.key :: seen)
      refine ⟨?_, ?_, ?_, ?_⟩
      · simp only [List.map_cons, List.nodup_cons]
        constructor
        · intro hmem
          simp only [List.mem_map] at hmem
          obtain ⟨m, hm, hkey⟩ := hmem
          exact (ihf m hm) (by rw [hkey]; exact List.mem_cons_self _ _)
        · exact ihd
      · intro m hm
        rcases List.mem_cons.mp hm with rfl | hm'
        · exact hn
        · intro hseen
          exact (ihf m hm') (List.mem_cons_of_mem _ hseen)
      · intro m hm
        rcases List.mem_cons.mp hm with rfl | hm'
        · exact ihs _ (List.mem_cons_self _ _)
        · exact ihm m hm'
      · intro x hx
        exact ihs x (List.mem_cons_of_mem _ hx)

/-- Fuel-bounded embedding of one `do ... while (currentPostRows.length > 0)`
drain loop of `iteratePins` (lines 808-811 and 816-819): yield the current
records (`consumePins`), re-read the rendered list, and repeat while it is
nonempty.  Returns the yielded records, the next read index, and the final
seen-set. -/
def drainPins (env : Nat → List RNode) :
    Nat → List RNode → Nat → List String → List RNode × Nat × List String
  | 0, _, k, seen => ([], k, seen)
  | fuel+1, current, k, seen =>
    if (selectPins seen (env k)).1.isEmpty then
      (current, k+1, (selectPins seen (env k)).2)
    else
      (current ++ (drainPins env fuel (selectPins seen (env k)).1 (k+1)
          (selectPins seen (env k)).2).1,
       (drainPins env fuel (selectPins seen (env k)).1 (k+1)
          (selectPins seen (env k)).2).2)

theorem drainPins_spec (env : Nat → List RNode) :
    ∀ (fuel : Nat) (current : List RNode) (k : Nat) (seen : List String),
      ((current.map RNode.key).Nodup) → (∀ n ∈ current, n.key ∈ seen) →
      (((drainPins env fuel current k seen).1.map RNode.key).Nodup) ∧
      (∀ n ∈ (drainPins env fuel current k seen).1,
        n.key ∈ (drainPins env fuel current k seen).2.2) ∧
      (∀ x ∈ seen, x ∈ (drainPins env fuel current k seen).2.2) ∧
      (∀ n ∈ (drainPins env fuel current k seen).1,
        n.key ∈ current.map RNode.key ∨ n.key ∉ seen) := by
  intro fuel
  induction fuel with
  | zero =>
    intro current k seen hnd hcur
    refine ⟨?_, ?_, ?_, ?_⟩ <;> simp [drainPins]
  | succ m ih =>
    intro current k seen hnd hcur
    obtain ⟨sd, sf, sm, ss⟩ := selectPins_spec (env k) seen
    by_cases hsel : (selectPins seen (env k)).1.isEmpty = true
    · have heq : drainPins env (m+1) current k seen =
          (current, k+1, (selectPins seen (env k)).2) := by
        simp only [drainPins, if_pos hsel]
      rw [heq]
      refine ⟨hnd, ?_, ?_, ?_⟩
      · intro n hn
        exact ss _ (hcur n hn)
      · intro x hx
        exact ss x hx
      · intro n hn
        exact Or.inl (List.mem_map_of_mem _ hn)
    · have heq : drainPins env (m+1) current k seen =
          (current ++ (drainPins env m (selectPins seen (env k)).1 (k+1)
              (selectPins seen (env k)).2).1,
           (drainPins env m (selectPins seen (env k)).1 (k+1)
              (selectPins seen (env k)).2).2) := by
        simp only [drainPins, if_neg hsel]
      rw [heq]
      obtain ⟨rd, rf, rs, rdisj⟩ :=
        ih (selectPins seen (env k)).1 (k+1) (selectPins seen (env k)).2 sd sm
      refine ⟨?_, ?_, ?_, ?_⟩
      · rw [List.map_append]
        refine List.Nodup.append hnd rd ?_
        intro a ha hb
        simp only [List.mem_map] at ha hb
        obtain ⟨n, hn, rfl⟩ := ha
        obtain ⟨p, hp, hkey⟩ := hb
        have hseen : n.key ∈ seen := hcur n hn
        rcases rdisj p hp with hin | hout
        · simp only [List.mem_map] at hin
          obtain ⟨q, hq, hqkey⟩ := hin
          exact (sf q hq) (by rw [hqkey, hkey]; exact hseen)
        · exact hout (by rw [hkey]; exact ss _ hseen)
      · intro n hn
        rcases List.mem_append.mp hn with hn' | hn'
        · exact rs _ (ss _ (hcur n hn'))
        · exact rf n hn'
      · intro x hx
        exact rs x (ss x hx)
      · intro n hn
        rcases List.mem_append.mp hn with hn' | hn'
        · exact Or.inl (List.mem_map_of_mem _ hn')
        · rcases rdisj n hn' with hin | hout
          · simp only [List.mem_map] at hin
            obtain ⟨q, hq, hqkey⟩ := hin
            exact Or.inr (fun hseen => (sf q hq) (by rw [hqkey]; exact hseen))
          · exact Or.inr (fun hseen => hout (ss _ hseen))

/-- First drain phase of `iteratePins` (lines 806-811): initial read with
an empty seen-set, then the first do-while drain. -/
def gridPhase1 (env : Nat → List RNode) (fuel : Nat) :
    List RNode × Nat × List String :=
  drainPins env fuel (selectPins [] (env 0)).1 1 (selectPins [] (env 0)).2

/-- The re-read at lines 813-815 that starts the second drain phase. -/
def gridPhase2Start (env : Nat → List RNode) (fuel : Nat) :
    List RNode × List String :=
  selectPins (gridPhase1 env fuel).2.2 (env (gridPhase1 env fuel).2.1)

/-- Second drain phase of `iteratePins` (lines 816-819). -/
def gridPhase2 (env : Nat → List RNode) (fuel : Nat) :
    List RNode × Nat × List String :=
  drainPins env fuel (gridPhase2Start env fuel).1
    ((gridPhase1 env fuel).2.1 + 1) (gridPhase2Start env fuel).2

/-- Embedding of `iteratePins` (lines 791-820): the records yielded by the
deliberate two-phase drain, in order.  `env k` is the rendered child list
(with react keys) at the k-th read of the container. -/
def iteratePins (env : Nat → List RNode) (fuel : Nat) : List RNode :=
  (gridPhase1 env fuel).1 ++ (gridPhase2 env fuel).1

/-- Claim C5: over a whole grid session — all drain passes of both phases
included — no record whose stable key was already yielded is yielded
again: the yielded key sequence is duplicate-free. -/
theorem grid_no_duplicate_yields (env : Nat → List RNode) (fuel : Nat) :
    ((iteratePins env fuel).map RNode.key).Nodup := by
  obtain ⟨s0d, s0f, s0m, s0s⟩ := selectPins_spec (env 0) []
  obtain ⟨p1d, p1f, p1s, p1disj⟩ :=
    drainPins_spec env fuel (selectPins [] (env 0)).1 1
      (selectPins [] (env 0)).2 s0d s0m
  obtain ⟨s2d, s2f, s2m, s2s⟩ :=
    selectPins_spec (env (gridPhase1 env fuel).2.1) (gridPhase1 env fuel).2.2
  obtain ⟨p2d, p2f, p2s, p2disj⟩ :=
    drainPins_spec env fuel (gridPhase2Start env fuel).1
      ((gridPhase1 env fuel).2.1 + 1) (gridPhase2Start env fuel).2 s2d s2m
  unfold iteratePins
  rw [List.map_append]
  refine List.Nodup.append p1d p2d ?_
  intro a ha hb
  simp only [List.mem_map] at ha hb
  obtain ⟨n, hn, rfl⟩ := ha
  obtain ⟨p, hp, hkey⟩ := hb
  have hn2 : n.key ∈ (gridPhase1 env fuel).2.2 := p1f n hn
  rcases p2disj p hp with hin | hout
  · simp only [List.mem_map] at hin
    obtain ⟨q, hq, hqkey⟩ := hin
    exact (s2f q hq) (by rw [hqkey, hkey]; exact hn2)
  · exact hout (by rw [hkey]; exact s2s _ hn2)

/-! ## Grid visitor: fatal conditions (claim C8) -/

structure ReactInst where
  key : String
deriving DecidableEq

/-- A DOM object as `reactInstanceFromDOMElem` sees it: its identity, its
own enumerable property names, and the react instance stored under the
internal property (when one exists). -/
structure GridElem where
  elemId : Nat
  objKeys : List String
  reactInst : ReactInst
deriving DecidableEq

/-- `reactProps.onDomNode` (line 614). -/
def reactPropsOnDomNode : String := "__reactInternalInstance"

/-- Embedding of `reactInstanceFromDOMElem` (lines 623-636): scan the
object's own keys for one starting with the react-internal marker;
absence is fatal. -/
def reactInstanceFromDOMElem (e : GridElem) : Except String ReactInst :=
  match e.objKeys.find? (fun k => startsWithStr k reactPropsOnDomNode) with
  | some _ => Except.ok e.reactInst
  | none => Except.error "Could not find react internal key"

/-- The document state `getGridContainer` (lines 782-789) queries:
`gridItem` is `document.querySelector('div[data-grid-item]')`,
`gridItemParent` its `parentElement`, and `gridContainer` the independent
`document.querySelector('div.gridCentered > div > div > div')`.  Model
elements carry distinct `elemId`s, so structural equality of the model
stands for JS reference identity. -/
structure GridDoc where
  gridItem : Option GridElem
  gridItemParent : Option GridElem
  gridContainer : Option GridElem
deriving DecidableEq

/-- Embedding of `getGridContainer`: reading `parentElement` of a missing
first grid item throws a TypeError; a parent reference differing from the
independent container query is the fatal `wrong container`. -/
def getGridContainer (d : GridDoc) : Except String (Option GridElem) :=
  match d.gridItem with
  | none => Except.error "TypeError"
  | some _ =>
    if d.gridItemParent ≠ d.gridContainer then Except.error "wrong container"
    else Except.ok d.gridItemParent

/-- Session start of `iteratePins` (line 793):
`reactInstanceFromDOMElem(getGridContainer())`; `Object.keys` of a null
container throws. -/
def startGridSession (d : GridDoc) : Except String ReactInst :=
  match getGridContainer d with
  | Except.error e => Except.error e
  | Except.ok none => Except.error "TypeError"
  | Except.ok (some c) => reactInstanceFromDOMElem c

/-- Claim C8: the grid visitor raises fatal conditions to the host rather
than skipping — a first-grid-item parent differing in identity from the
independently queried grid container aborts the session start with
`wrong container`, and a rendered node carrying no react-internal
rendering-state key is the fatal `Could not find react internal key`. -/
theorem grid_fatal_conditions (d : GridDoc) (item e : GridElem) :
    (d.gridItem = some item → d.gridItemParent ≠ d.gridContainer →
      getGridContainer d = Except.error "wrong container" ∧
      startGridSession d = Except.error "wrong container") ∧
    (e.objKeys.find? (fun k => startsWithStr k reactPropsOnDomNode) = none →
      reactInstanceFromDOMElem e =
        Except.error "Could not find react internal key") := by
  constructor
  · intro hitem hne
    have hg : getGridContainer d = Except.error "wrong container" := by
      simp only [getGridContainer, hitem]
      rw [if_pos hne]
    refine ⟨hg, ?_⟩
    unfold startGridSession
    rw [hg]
  · intro hfind
    unfold reactInstanceFromDOMElem
    rw [hfind]

def c8Container : GridElem :=
  { elemId := 1, objKeys := ["__reactInternalInstance$abc"], reactInst := ⟨"row-0"⟩ }

def c8Item : GridElem :=
  { elemId := 2, objKeys := [], reactInst := ⟨"item"⟩ }

def c8OtherContainer : GridElem :=
  { elemId := 3, objKeys := [], reactInst := ⟨"other"⟩ }

/-- A document whose re-queried container differs from the parent of the
first grid item. -/
def c8Doc : GridDoc :=
  { gridItem := some c8Item
    gridItemParent := some c8Container
    gridContainer := some c8OtherContainer }

/-- A rendered node with no react-internal property. -/
def c8KeylessNode : GridElem :=
  { elemId := 4, objKeys := ["className", "dataset"], reactInst := ⟨"hidden"⟩ }

/-- Witness for claim C8 at a concrete mismatching document and a
concrete keyless node. -/
theorem grid_fatal_conditions_witness :
    (getGridContainer c8Doc = Except.error "wrong container" ∧
      startGridSession c8Doc = Except.error "wrong container") ∧
    reactInstanceFromDOMElem c8KeylessNode =
      Except.error "Could not find react internal key" :=
  ⟨(grid_fatal_conditions c8Doc c8Item c8KeylessNode).1 rfl (by decide),
   (grid_fatal_conditions c8Doc c8Item c8KeylessNode).2 (by decide)⟩

/-! ## Interaction primitives (claim C9) -/

inductive PageEvent
  | mouseover (elemId : Nat)
  | elemClick (elemId : Nat)
  | waitPoll (tick : Nat)
deriving DecidableEq

/-- Embedding of `click` (lines 144-158): a null element is a normal
branch — no event is dispatched, no exception raised (the embedding is a
total function), and false is returned; otherwise a synthesized
`mouseover` is dispatched, the element's `click()` is invoked, and true
is returned. -/
def click (elem : Option Nat) : Bool × List PageEvent :=
  match elem with
  | none => (false, [])
  | some e => (true, [PageEvent.mouseover e, PageEvent.elemClick e])

/-- Embedding of `waitForPredicate` (lines 88-97): a fixed 1000 ms
interval polls the predicate and resolves at the first truthy result;
`pred t` is the predicate's value at the t-th firing, and the fuel bounds
how many firings the model unrolls. -/
def waitForPredicate (pred : Nat → Bool) : Nat → Nat → List PageEvent
  | 0, _ => []
  | fuel+1, tick =>
    if pred tick then [PageEvent.waitPoll tick]
    else PageEvent.waitPoll tick :: waitForPredicate pred fuel (tick+1)

/-- Embedding of `clickAndWaitFor` (lines 174-180): click, suspend on the
predicate only when the click happened, and return whether it did. -/
def clickAndWaitFor (elem : Option Nat) (pred : Nat → Bool) (fuel : Nat) :
    Bool × List PageEvent :=
  if (click elem).1 then
    ((click elem).1, (click elem).2 ++ waitForPredicate pred fuel 0)
  else ((click elem).1, (click elem).2)

def isWaitPoll : PageEvent → Bool
  | PageEvent.waitPoll _ => true
  | _ => false

/-- Claim C9: `click` returns true exactly when the element is present
and produces no events (and no exception) on an absent one;
`clickAndWaitFor` returns whether the click happened, and its trace
contains predicate polls exactly when the click happened (and the model
unrolls at least one interval firing). -/
theorem click_contract (elem : Option Nat) (pred : Nat → Bool) (fuel : Nat) :
    (click elem).1 = elem.isSome ∧
    (click (none : Option Nat)).2 = [] ∧
    (clickAndWaitFor elem pred fuel).1 = elem.isSome ∧
    ((clickAndWaitFor elem pred fuel).2.any isWaitPoll =
      (elem.isSome && decide (0 < fuel))) := by
  refine ⟨?_, rfl, ?_, ?_⟩
  · cases elem <;> rfl
  · cases elem <;> rfl
  · cases elem with
    | none => rfl
    | some e =>
      cases fuel with
      | zero => rfl
      | succ m =>
        cases hp : pred 0 <;>
          simp [clickAndWaitFor, click, waitForPredicate, isWaitPoll, hp]

end Autobrowser
